import Mathlib

/-!
Verification of the timecapsule scheduled-file delivery system.

This file gives a shallow embedding of the core of the repository:

* the edge function in supabase/functions/send-scheduled-file/index.ts
  (the dispatcher: sendEmail, generateAccessUrl, getScheduledFiles,
  updateFileStatus, processFile, processScheduledFiles), and
* the client services in src/services/fileService.ts
  (getFileByToken, updateScheduledFile, getScheduledFiles).

External collaborators (the Supabase record store, the Resend mail API, the
object store's signed-URL issuance, and auth) are modelled as oracles held in
an explicit environment record: a Bool- or Option-valued function says whether
the corresponding external call succeeds.  The scheduled_files table is a list
of records; a supabase update keyed on an id is a map over that list guarded
by the matching id, applied only when the store accepts the write.
-/

/-- The status column of a scheduled_files row: 'pending' | 'sent' | 'failed'. -/
inductive Status where
  | pending
  | sent
  | failed
deriving DecidableEq, Repr

/-- A row of the scheduled_files table, with the columns the code reads or
writes.  Ids and tokens are opaque strings; instants are UTC epoch values. -/
structure ScheduledFile where
  id : String
  user_id : String
  file_name : String
  file_size : Nat
  file_type : String
  storage_path : String
  recipient_email : String
  scheduled_date : Int
  access_token : String
  status : Status
  sent_at : Option Int
  created_at : Int
  updated_at : Int
deriving DecidableEq, Repr

/-- Look up the (first) record with the given id, as a supabase query keyed
on eq("id", fileId) would. -/
def getById (db : List ScheduledFile) (i : String) : Option ScheduledFile :=
  db.find? (fun f => f.id == i)

namespace Dispatch

/-- Environment of the edge function: its env vars and the outcome oracles of
its external calls.  resendOk gives the outcome of the Resend API call for a
given (to, subject, body); updateOk says whether the store accepts a status
write for a given (fileId, status). -/
structure Env where
  resendApiKey : Option String
  appUrl : String
  resendOk : String → String → String → Bool
  updateOk : String → Status → Bool
  now : Int

/-- One actual call to the Resend mail API (the transport invocation). -/
structure EmailAttempt where
  toAddr : String
  subject : String
  body : String
deriving DecidableEq, Repr

/-- Per-record entry of the batch result: { id, success, error? }. -/
structure Detail where
  id : String
  success : Bool
  error : Option String
deriving DecidableEq, Repr

/-- sendEmail from index.ts, instrumented with the list of transport calls it
makes: returns false with no call when RESEND_API_KEY is unset or the
recipient fails the `!to || !to.includes('@')` check (the containment test is
expressed over the string's character list), and otherwise performs
exactly one Resend API call whose outcome the oracle decides. -/
def sendEmailCalls (env : Env) (toAddr subject body : String) : Bool × List EmailAttempt :=
  match env.resendApiKey with
  | none => (false, [])
  | some _ =>
    if toAddr = "" || !(toAddr.data.contains '@') then (false, [])
    else (env.resendOk toAddr subject body, [⟨toAddr, subject, body⟩])

/-- sendEmail's boolean result (success of the email send). -/
def sendEmail (env : Env) (toAddr subject body : String) : Bool :=
  (sendEmailCalls env toAddr subject body).1

/-- generateAccessUrl from index.ts: baseUrl ++ "/access/" ++ accessToken,
falling back to the production URL when APP_URL is empty. -/
def generateAccessUrl (env : Env) (accessToken : String) : String :=
  (if env.appUrl = "" then "https://timecapsule.vercel.app" else env.appUrl)
    ++ "/access/" ++ accessToken

/-- getScheduledFiles from index.ts: the rows with
scheduled_date <= now AND status = 'pending'. -/
def getScheduledFiles (env : Env) (db : List ScheduledFile) : List ScheduledFile :=
  db.filter (fun f => decide (f.scheduled_date ≤ env.now) && (f.status == Status.pending))

/-- The effect on the table of update({ status }).eq("id", fileId): every row
with the matching id gets the new status and nothing else changes.  Note that
no other column (in particular not sent_at) is written, and no expected prior
status is required. -/
def setStatus (db : List ScheduledFile) (fileId : String) (s : Status) : List ScheduledFile :=
  db.map (fun f => if f.id = fileId then { f with status := s } else f)

/-- updateFileStatus from index.ts: issues the unguarded status write; the
store oracle decides whether it succeeds.  On failure the table is unchanged
and false is returned. -/
def updateFileStatus (env : Env) (db : List ScheduledFile) (fileId : String) (s : Status) :
    List ScheduledFile × Bool :=
  if env.updateOk fileId s then (setStatus db fileId s, true) else (db, false)

/-- The subject line built in processFile. -/
def emailSubject (f : ScheduledFile) : String :=
  "Your scheduled file \"" ++ f.file_name ++ "\" is ready"

/-- The html body built in processFile, around the access URL. -/
def emailBody (env : Env) (f : ScheduledFile) : String :=
  let accessUrl := generateAccessUrl env f.access_token
  "Hello,<br><br>Your scheduled file \"" ++ f.file_name
    ++ "\" is now available. Click the link below to access it:<br><br><a href=\""
    ++ accessUrl ++ "\">" ++ accessUrl
    ++ "</a><br><br>This link will expire in 24 hours.<br><br>Regards,<br>TimeCapsule Team"

/-- processFile from index.ts, acting on the current table and the record
snapshot taken at selection time.  Returns the new table, the per-record
detail, and the transport calls made.  On email success it writes 'sent'
(detail success=false with the status-update error when that write fails); on
email failure it writes 'failed', ignoring that write's own outcome. -/
def processFile (env : Env) (db : List ScheduledFile) (file : ScheduledFile) :
    List ScheduledFile × Detail × List EmailAttempt :=
  let subject := emailSubject file
  let body := emailBody env file
  let sendRes := sendEmailCalls env file.recipient_email subject body
  if sendRes.1 then
    let upd := updateFileStatus env db file.id Status.sent
    if upd.2 then (upd.1, ⟨file.id, true, none⟩, sendRes.2)
    else (upd.1, ⟨file.id, false, some "Failed to update file status"⟩, sendRes.2)
  else
    ((updateFileStatus env db file.id Status.failed).1,
      ⟨file.id, false, some "Failed to send email"⟩, sendRes.2)

/-- The result of processScheduledFiles: either the zero-record short-circuit
{ processed: 0, message } or the batch shape
{ processed, success, failed, details }. -/
inductive RunResult where
  | noFiles (processed : Nat) (message : String)
  | batch (processed success failed : Nat) (details : List Detail)
deriving DecidableEq, Repr

/-- The details list carried by a run result ([] for the short-circuit). -/
def RunResult.detailList : RunResult → List Detail
  | .noFiles _ _ => []
  | .batch _ _ _ d => d

/-- One step of the per-record loop: process the next selected record against
the evolving table, appending its detail and transport calls. -/
def runStep (env : Env) (acc : List ScheduledFile × List Detail × List EmailAttempt)
    (f : ScheduledFile) : List ScheduledFile × List Detail × List EmailAttempt :=
  ((processFile env acc.1 f).1,
   acc.2.1 ++ [(processFile env acc.1 f).2.1],
   acc.2.2 ++ (processFile env acc.1 f).2.2)

/-- processScheduledFiles from index.ts: select the due pending records;
return { processed: 0, message } without touching the table or the transport
when none matched, else process each selected record and aggregate
{ processed, success, failed, details }.  Also returns the final table and
every transport call made during the run. -/
def processScheduledFiles (env : Env) (db : List ScheduledFile) :
    RunResult × List ScheduledFile × List EmailAttempt :=
  let files := getScheduledFiles env db
  if files.length = 0 then
    (RunResult.noFiles 0 "No files ready to be sent", db, [])
  else
    let out := files.foldl (runStep env) (db, [], [])
    (RunResult.batch out.2.1.length
      (out.2.1.filter (fun d => d.success)).length
      (out.2.1.filter (fun d => !d.success)).length
      out.2.1,
     out.1, out.2.2)

end Dispatch

namespace Client

/-- Environment of the browser client in fileService.ts: the authenticated
user (supabase.auth.getUser), whether the list query succeeds, the object
store's signed-URL issuance (keyed by storage path and ttl in seconds), and
whether the store accepts an update keyed on a given record id. -/
structure Env where
  authUser : Option String
  listOk : Bool
  signedUrl : String → Nat → Option String
  updateOk : String → Bool
  now : Int

/-- The value getFileByToken resolves to: { fileName, fileType, fileUrl }. -/
structure TokenFile where
  fileName : String
  fileType : String
  fileUrl : String
deriving DecidableEq, Repr

/-- The select("*").eq("access_token", token).single() query: the unique row
with the given access token, none when zero or several rows match (single()
errors in both cases). -/
def findByToken (db : List ScheduledFile) (token : String) : Option ScheduledFile :=
  match db.filter (fun f => f.access_token == token) with
  | [f] => some f
  | _ => none

/-- getFileByToken from fileService.ts: resolve the unique record by token
(none when missing), create a 24-hour signed URL regardless of the record's
status (none when that issuance fails), then — only when the record is
'pending' — opportunistically write status='sent' with sent_at=now, a write
whose failure is swallowed; finally return { fileName, fileType, fileUrl }.
Returns the resolution result together with the table after the optional
write. -/
def getFileByToken (env : Env) (db : List ScheduledFile) (token : String) :
    Option TokenFile × List ScheduledFile :=
  match findByToken db token with
  | none => (none, db)
  | some data =>
    match env.signedUrl data.storage_path (60 * 60 * 24) with
    | none => (none, db)
    | some url =>
      let db1 :=
        if data.status = Status.pending then
          if env.updateOk data.id then
            db.map (fun f =>
              if f.id = data.id then
                { f with status := Status.sent, sent_at := some env.now }
              else f)
          else db
        else db
      (some ⟨data.file_name, data.file_type, url⟩, db1)

/-- The { id, recipient, scheduledDate } argument of updateScheduledFile. -/
structure UpdateScheduleParams where
  id : String
  recipient : String
  scheduledDate : Int
deriving DecidableEq, Repr

/-- updateScheduledFile from fileService.ts: issues
update({ recipient_email, scheduled_date, updated_at }).eq("id", id) — keyed
on the id alone, with no check of the record's current status — and throws
when the store rejects the write.  (On success the source afterwards triggers
an immediate dispatch when the new date is already due; that call invokes the
edge function modelled in the Dispatch namespace and is non-fatal.) -/
def updateScheduledFile (env : Env) (db : List ScheduledFile) (p : UpdateScheduleParams) :
    Except String (List ScheduledFile) :=
  if env.updateOk p.id then
    Except.ok (db.map (fun f =>
      if f.id = p.id then
        { f with recipient_email := p.recipient, scheduled_date := p.scheduledDate,
                 updated_at := env.now }
      else f))
  else Except.error "update failed"

/-- The client-side view of a row, as built by getScheduledFiles. -/
structure FileItem where
  id : String
  name : String
  size : Nat
  fileType : String
  recipient : String
  scheduledDate : Int
  status : Status
  createdAt : Int
  access_token : String
  storage_path : String
deriving DecidableEq, Repr

/-- The per-row mapping getScheduledFiles applies to the fetched data. -/
def toFileItem (item : ScheduledFile) : FileItem :=
  ⟨item.id, item.file_name, item.file_size, item.file_type, item.recipient_email,
   item.scheduled_date, item.status, item.created_at, item.access_token,
   item.storage_path⟩

/-- Insert a row into a list kept in descending created_at order. -/
def insertDesc (x : ScheduledFile) : List ScheduledFile → List ScheduledFile
  | [] => [x]
  | y :: ys => if y.created_at ≤ x.created_at then x :: y :: ys else y :: insertDesc x ys

/-- The order("created_at", { ascending: false }) clause of the list query. -/
def sortByCreatedDesc : List ScheduledFile → List ScheduledFile
  | [] => []
  | x :: xs => insertDesc x (sortByCreatedDesc xs)

/-- getScheduledFiles from fileService.ts (the owner-facing list operation):
returns [] when no user is authenticated; fetches the user's rows ordered by
created_at descending and maps them to FileItem; and — because the thrown
fetch error is caught by the function's own catch block, which returns [] —
also returns [] when the store query fails. -/
def getScheduledFiles (env : Env) (db : List ScheduledFile) : List FileItem :=
  match env.authUser with
  | none => []
  | some uid =>
    if env.listOk then
      (sortByCreatedDesc (db.filter (fun f => f.user_id == uid))).map toFileItem
    else []

end Client

namespace Dispatch

/-- Derived view: the status processFile writes for a snapshot record —
'sent' on email success, 'failed' otherwise. -/
def targetStatus (env : Env) (f : ScheduledFile) : Status :=
  if sendEmail env f.recipient_email (emailSubject f) (emailBody env f) then Status.sent
  else Status.failed

/-- Derived view: the detail processFile reports for a snapshot record. -/
def fileDetail (env : Env) (f : ScheduledFile) : Detail :=
  if sendEmail env f.recipient_email (emailSubject f) (emailBody env f) then
    if env.updateOk f.id Status.sent then ⟨f.id, true, none⟩
    else ⟨f.id, false, some "Failed to update file status"⟩
  else ⟨f.id, false, some "Failed to send email"⟩

/-- Derived view: the transport calls processFile makes for a snapshot record. -/
def callsOf (env : Env) (f : ScheduledFile) : List EmailAttempt :=
  (sendEmailCalls env f.recipient_email (emailSubject f) (emailBody env f)).2

/-- The table after processing one snapshot record. -/
def dbStep (env : Env) (db : List ScheduledFile) (f : ScheduledFile) : List ScheduledFile :=
  (processFile env db f).1

/-- The table after processing a list of snapshot records in order. -/
def dbAfter (env : Env) (db : List ScheduledFile) (files : List ScheduledFile) :
    List ScheduledFile :=
  files.foldl (dbStep env) db

theorem dbAfter_nil (env : Env) (db : List ScheduledFile) : dbAfter env db [] = db := rfl

theorem dbAfter_cons (env : Env) (db : List ScheduledFile) (f : ScheduledFile)
    (fs : List ScheduledFile) : dbAfter env db (f :: fs) = dbAfter env (dbStep env db f) fs := rfl

/-- processFile either leaves the table alone (rejected write) or applies the
unguarded status write of its target status. -/
theorem processFile_fst (env : Env) (db : List ScheduledFile) (f : ScheduledFile) :
    (processFile env db f).1 =
      if env.updateOk f.id (targetStatus env f) then setStatus db f.id (targetStatus env f)
      else db := by
  unfold processFile targetStatus sendEmail updateFileStatus
  cases h : (sendEmailCalls env f.recipient_email (emailSubject f) (emailBody env f)).1 <;>
    simp [h] <;> split <;> simp

/-- The detail processFile reports does not depend on the current table. -/
theorem processFile_detail (env : Env) (db : List ScheduledFile) (f : ScheduledFile) :
    (processFile env db f).2.1 = fileDetail env f := by
  unfold processFile fileDetail sendEmail updateFileStatus
  cases h : (sendEmailCalls env f.recipient_email (emailSubject f) (emailBody env f)).1 <;>
    simp [h] <;> split <;> simp

/-- The transport calls processFile makes do not depend on the current table. -/
theorem processFile_calls (env : Env) (db : List ScheduledFile) (f : ScheduledFile) :
    (processFile env db f).2.2 = callsOf env f := by
  unfold processFile callsOf updateFileStatus
  cases h : (sendEmailCalls env f.recipient_email (emailSubject f) (emailBody env f)).1 <;>
    simp [h] <;> split <;> simp

/-- Unfolding of the per-record loop: the details are the per-snapshot details
in selection order, the transport calls concatenate, and the table is dbAfter. -/
theorem foldl_runStep_eq (env : Env) (files : List ScheduledFile) :
    ∀ (db : List ScheduledFile) (ds : List Detail) (cs : List EmailAttempt),
      files.foldl (runStep env) (db, ds, cs) =
        (dbAfter env db files, ds ++ files.map (fileDetail env),
         cs ++ files.flatMap (callsOf env)) := by
  induction files with
  | nil => intro db ds cs; simp [dbAfter]
  | cons f fs ih =>
    intro db ds cs
    have hstep : runStep env (db, ds, cs) f =
        (dbStep env db f, ds ++ [fileDetail env f], cs ++ callsOf env f) := by
      simp [runStep, dbStep, processFile_detail, processFile_calls]
    rw [List.foldl_cons, hstep, ih, dbAfter_cons]
    simp

/-- The zero-record short-circuit of processScheduledFiles. -/
theorem processScheduledFiles_empty (env : Env) (db : List ScheduledFile)
    (h : getScheduledFiles env db = []) :
    processScheduledFiles env db = (RunResult.noFiles 0 "No files ready to be sent", db, []) := by
  simp [processScheduledFiles, h]

/-- The non-empty branch of processScheduledFiles, in closed form. -/
theorem processScheduledFiles_batch (env : Env) (db : List ScheduledFile)
    (h : getScheduledFiles env db ≠ []) :
    processScheduledFiles env db =
      (RunResult.batch (getScheduledFiles env db).length
        (((getScheduledFiles env db).map (fileDetail env)).filter (fun d => d.success)).length
        (((getScheduledFiles env db).map (fileDetail env)).filter (fun d => !d.success)).length
        ((getScheduledFiles env db).map (fileDetail env)),
       dbAfter env db (getScheduledFiles env db),
       (getScheduledFiles env db).flatMap (callsOf env)) := by
  have hlen : ¬(getScheduledFiles env db).length = 0 := by
    simpa [List.length_eq_zero] using h
  simp [processScheduledFiles, hlen, foldl_runStep_eq]

end Dispatch

namespace Dispatch

/-- A record the id-keyed lookup returns carries the looked-up id. -/
theorem getById_some_id (db : List ScheduledFile) (i : String) (g : ScheduledFile)
    (h : getById db i = some g) : g.id = i := by
  have := List.find?_some h
  simpa using this

/-- With no duplicate ids, the id-keyed lookup of a member returns that member. -/
theorem getById_self_of_nodup (db : List ScheduledFile)
    (hnd : (db.map (fun f => f.id)).Nodup) (f : ScheduledFile) (hf : f ∈ db) :
    getById db f.id = some f := by
  induction db with
  | nil => cases hf
  | cons g rest ih =>
    rw [List.map_cons, List.nodup_cons] at hnd
    rcases List.mem_cons.mp hf with rfl | hmem
    · simp [getById, List.find?_cons]
    · have hne : ¬(g.id == f.id) = true := by
        simp only [beq_iff_eq]
        intro hEq
        exact hnd.1 (hEq ▸ List.mem_map_of_mem _ hmem)
      rw [getById, List.find?_cons]
      simp only [hne]
      exact ih hnd.2 hmem

/-- Lookup through an id-guarded per-record rewrite of the table. -/
theorem getById_map_guard (t : ScheduledFile → ScheduledFile)
    (ht : ∀ g, (t g).id = g.id) (j i : String) (db : List ScheduledFile) :
    getById (db.map (fun g => if g.id = j then t g else g)) i =
      Option.map (fun g => if g.id = j then t g else g) (getById db i) := by
  induction db with
  | nil => rfl
  | cons g rest ih =>
    have hid : (if g.id = j then t g else g).id = g.id := by
      split <;> simp [ht]
    rw [List.map_cons, getById, List.find?_cons, getById, List.find?_cons]
    cases hb : (g.id == i) with
    | true => simp [hid, hb]
    | false => simpa [hid, hb, getById] using ih

/-- The unguarded status write leaves every other id untouched. -/
theorem getById_setStatus_ne (db : List ScheduledFile) (j : String) (s : Status) (i : String)
    (h : i ≠ j) : getById (setStatus db j s) i = getById db i := by
  rw [setStatus, getById_map_guard (fun g => { g with status := s }) (fun g => rfl) j i db]
  cases hg : getById db i with
  | none => rfl
  | some g =>
    have hgi : g.id = i := getById_some_id db i g hg
    simp [hgi, h]

/-- The unguarded status write replaces the status at the written id. -/
theorem getById_setStatus_self (db : List ScheduledFile) (j : String) (s : Status)
    (g : ScheduledFile) (h : getById db j = some g) :
    getById (setStatus db j s) j = some { g with status := s } := by
  rw [setStatus, getById_map_guard (fun g => { g with status := s }) (fun g => rfl) j j db, h]
  have hgi : g.id = j := getById_some_id db j g h
  simp [hgi]

/-- Processing one record leaves every other id untouched. -/
theorem getById_dbStep_ne (env : Env) (db : List ScheduledFile) (f : ScheduledFile)
    (i : String) (h : i ≠ f.id) : getById (dbStep env db f) i = getById db i := by
  rw [dbStep, processFile_fst]
  split
  · exact getById_setStatus_ne db f.id _ i h
  · rfl

/-- A whole run leaves every id outside the processed snapshot untouched. -/
theorem getById_dbAfter_ne (env : Env) (files : List ScheduledFile) :
    ∀ (db : List ScheduledFile) (i : String), (∀ g ∈ files, g.id ≠ i) →
      getById (dbAfter env db files) i = getById db i := by
  induction files with
  | nil => intro db i _; rfl
  | cons f fs ih =>
    intro db i h
    rw [dbAfter_cons, ih _ _ (fun g hg => h g (List.mem_cons_of_mem _ hg)),
      getById_dbStep_ne env db f i (fun hEq => h f (List.mem_cons_self _ _) hEq.symm)]

/-- A whole run's effect on a processed snapshot record: its stored row gets
the target status when the store accepts the write, else stays as it was. -/
theorem getById_dbAfter_mem (env : Env) (files : List ScheduledFile) :
    ∀ (db : List ScheduledFile) (f g : ScheduledFile),
      ((files.map (fun x => x.id)).Nodup) → f ∈ files → getById db f.id = some g →
      getById (dbAfter env db files) f.id =
        some (if env.updateOk f.id (targetStatus env f) then { g with status := targetStatus env f }
              else g) := by
  induction files with
  | nil => intro db f g _ hf; cases hf
  | cons f' fs ih =>
    intro db f g hnd hf hget
    rw [List.map_cons, List.nodup_cons] at hnd
    rcases List.mem_cons.mp hf with rfl | hmem
    · have h1 : getById (dbStep env db f) f.id =
          some (if env.updateOk f.id (targetStatus env f) then { g with status := targetStatus env f }
                else g) := by
        rw [dbStep, processFile_fst]
        by_cases hok : env.updateOk f.id (targetStatus env f) = true
        · simp only [hok, if_true]
          exact getById_setStatus_self db f.id _ g hget
        · simp only [hok]
          simpa [hok] using hget
      have hnotin : ∀ g' ∈ fs, g'.id ≠ f.id := by
        intro g' hg' hEq
        exact hnd.1 (hEq ▸ List.mem_map_of_mem _ hg')
      rw [dbAfter_cons, getById_dbAfter_ne env fs _ _ hnotin, h1]
    · have hne : f.id ≠ f'.id := by
        intro hEq
        exact hnd.1 (hEq ▸ List.mem_map_of_mem _ hmem)
      rw [dbAfter_cons]
      exact ih _ f g hnd.2 hmem (by rw [getById_dbStep_ne env db f' f.id hne]; exact hget)

/-- Filtering preserves the no-duplicate-ids property of the table. -/
theorem getScheduledFiles_nodup_ids (env : Env) (db : List ScheduledFile)
    (hnd : (db.map (fun f => f.id)).Nodup) :
    ((getScheduledFiles env db).map (fun f => f.id)).Nodup :=
  List.Nodup.sublist (List.Sublist.map _ (List.filter_sublist db)) hnd

/-- With no duplicate ids, a member occurs exactly once by id. -/
theorem countP_id_eq_one (files : List ScheduledFile) (f : ScheduledFile)
    (hnd : (files.map (fun x => x.id)).Nodup) (hf : f ∈ files) :
    files.countP (fun g => g.id == f.id) = 1 := by
  induction files with
  | nil => cases hf
  | cons g fs ih =>
    rw [List.map_cons, List.nodup_cons] at hnd
    rcases List.mem_cons.mp hf with rfl | hmem
    · rw [List.countP_cons]
      have h0 : fs.countP (fun g' => g'.id == f.id) = 0 := by
        rw [List.countP_eq_zero]
        intro a ha
        simp only [beq_iff_eq]
        intro hEq
        exact hnd.1 (hEq ▸ List.mem_map_of_mem _ ha)
      simp [h0]
    · rw [List.countP_cons]
      have hne : ¬(g.id == f.id) = true := by
        simp only [beq_iff_eq]
        intro hEq
        exact hnd.1 (hEq ▸ List.mem_map_of_mem _ hmem)
      simp [ih hnd.2 hmem, hne]

/-- The detail built for a snapshot record carries that record's id. -/
theorem fileDetail_id (env : Env) (f : ScheduledFile) : (fileDetail env f).id = f.id := by
  unfold fileDetail
  split
  · split <;> rfl
  · rfl

/-- Each selected record contributes exactly one detail entry with its id. -/
theorem detail_filter_count (env : Env) (files : List ScheduledFile) (f : ScheduledFile)
    (hnd : (files.map (fun x => x.id)).Nodup) (hf : f ∈ files) :
    ((files.map (fileDetail env)).filter (fun d => d.id == f.id)).length = 1 := by
  rw [← List.countP_eq_length_filter, List.countP_map]
  have hco : files.countP ((fun d => d.id == f.id) ∘ fileDetail env) =
      files.countP (fun g => g.id == f.id) :=
    List.countP_congr (fun a _ => by simp [Function.comp, fileDetail_id])
  rw [hco]
  exact countP_id_eq_one files f hnd hf

/-- Splitting a list by a predicate splits its length. -/
theorem filter_length_add {α : Type} (p : α → Bool) (l : List α) :
    (l.filter p).length + (l.filter (fun a => !p a)).length = l.length := by
  induction l with
  | nil => rfl
  | cons a t ih =>
    cases h : p a <;> simp [List.filter_cons, h, ← ih] <;> omega

end Dispatch

/-! Concrete fixtures for the scenario theorems below. -/

/-- A due pending row (scheduled_date 50, clock at 100 in the environments). -/
def rowPending : ScheduledFile :=
  { id := "f1", user_id := "u1", file_name := "notes.txt", file_size := 12,
    file_type := "text/plain", storage_path := "u1/notes.txt",
    recipient_email := "a@b.com", scheduled_date := 50, access_token := "tok1",
    status := Status.pending, sent_at := none, created_at := 10, updated_at := 10 }

/-- The same due pending row with a recipient that fails the address check. -/
def rowBadEmail : ScheduledFile := { rowPending with recipient_email := "not-an-email" }

/-- A row already marked sent. -/
def rowSent : ScheduledFile := { rowPending with status := Status.sent }

/-- A row already marked failed. -/
def rowFailed : ScheduledFile := { rowPending with status := Status.failed }

/-- A pending row that is not yet due (scheduled_date 200 > 100). -/
def rowFuture : ScheduledFile :=
  { rowPending with id := "f2", access_token := "tok2", scheduled_date := 200 }

/-- Dispatcher environment in which every external call succeeds. -/
def envAllOk : Dispatch.Env :=
  { resendApiKey := some "k", appUrl := "", resendOk := fun _ _ _ => true,
    updateOk := fun _ _ => true, now := 100 }

/-- Dispatcher environment whose mail transport succeeds but whose store
rejects every status write. -/
def envWriteFail : Dispatch.Env := { envAllOk with updateOk := fun _ _ => false }

/-- Dispatcher environment whose mail transport rejects every send. -/
def envMailFail : Dispatch.Env := { envAllOk with resendOk := fun _ _ _ => false }

/-- Client environment in which every external call succeeds. -/
def cenvAllOk : Client.Env :=
  { authUser := some "u1", listOk := true,
    signedUrl := fun p _ => some ("signed:" ++ p), updateOk := fun _ => true, now := 100 }

/-- Client environment whose store rejects every record update. -/
def cenvWriteFail : Client.Env := { cenvAllOk with updateOk := fun _ => false }

/-- Client environment whose list query fails. -/
def cenvListFail : Client.Env := { cenvAllOk with listOk := false }

/-- Concrete update parameters aimed at row f1. -/
def updParams : Client.UpdateScheduleParams :=
  { id := "f1", recipient := "new@x.com", scheduledDate := 60 }

/-- Claim C1, counterexample to the claim as stated: rowPending is a due
pending record (status pending, scheduled_date 50 <= now 100), yet when the
store rejects the status write after a successful email the run leaves it
with status pending — it does not transition to sent or failed. -/
theorem C1_counterexample :
    rowPending.status = Status.pending
    ∧ rowPending.scheduled_date ≤ envWriteFail.now
    ∧ (Dispatch.processScheduledFiles envWriteFail [rowPending]).2.1 = [rowPending] := by
  set_option maxRecDepth 4000 in decide

/-- Claim C2: the status write has no guard on the expected prior status, so
a slow duplicate run can clobber a fresh sent.  Both overlapping runs select
rowPending from the same snapshot; the first run's email succeeds and marks
it sent; the second run then processes its stale snapshot, its email attempt
fails, and its unguarded write leaves the record failed — overwriting sent. -/
theorem C2_failed_overwrites_sent :
    Dispatch.getScheduledFiles envMailFail [rowPending] = [rowPending]
    ∧ (Dispatch.processScheduledFiles envAllOk [rowPending]).2.1
        = [{ rowPending with status := Status.sent }]
    ∧ (Dispatch.processFile envMailFail [{ rowPending with status := Status.sent }]
          rowPending).1
        = [{ rowPending with status := Status.failed }] := by
  set_option maxRecDepth 4000 in decide

/-- Claim C3, counterexample to the claim as stated: a successful dispatch of
rowPending leaves status = sent but sent_at = none — the dispatcher's status
update writes only the status column, never sentAt (compare getFileByToken,
which does write sent_at). -/
theorem C3_counterexample :
    ((Dispatch.processScheduledFiles envAllOk [rowPending]).2.1.map
        (fun f => (f.status, f.sent_at))) = [(Status.sent, (none : Option Int))] := by
  set_option maxRecDepth 4000 in decide

/-- Claim C5, counterexample to the claim as stated: for a record whose email
was sent but whose status write failed, the per-record detail IS marked as a
failure (success := false, counted under failed), not surfaced as a
partial-success anomaly. -/
theorem C5_counterexample :
    (Dispatch.processScheduledFiles envWriteFail [rowPending]).1
      = Dispatch.RunResult.batch 1 0 1
          [⟨"f1", false, some "Failed to update file status"⟩] := by
  set_option maxRecDepth 4000 in decide

/-- Claim C6, counterexample to the claim as stated: a run with zero due
records returns the { processed: 0, message } shape — carrying no success,
failed or details fields at all rather than the full batch shape — and makes
no transport call and no table change. -/
theorem C6_counterexample :
    Dispatch.processScheduledFiles envAllOk [rowFuture]
      = (Dispatch.RunResult.noFiles 0 "No files ready to be sent", [rowFuture], []) := by
  set_option maxRecDepth 4000 in decide

/-- Claim C8, counterexample to the claim as stated: updateScheduledFile
updates the recipient and scheduled date of a record whose status is sent —
there is no pending-only guard on the reschedule write. -/
theorem C8_counterexample :
    rowSent.status = Status.sent
    ∧ Client.updateScheduledFile cenvAllOk [rowSent] updParams
        = Except.ok
            [{ rowSent with
                recipient_email := "new@x.com", scheduled_date := 60, updated_at := 100 }] := by
  exact ⟨rfl, rfl⟩

/-- Claim C9, counterexample to the claim as stated: a list call that hits a
store error returns the plain empty list — exactly the same normal result a
successful fetch over an empty table returns — so no typed failure reaches
the caller and the two cases are indistinguishable. -/
theorem C9_counterexample :
    Client.getScheduledFiles cenvListFail [rowPending] = []
    ∧ Client.getScheduledFiles cenvAllOk [] = []
    ∧ rowPending.user_id = "u1" := by
  set_option maxRecDepth 4000 in decide

/-- Claim C4: resolve(token) returns NotFound (none, with the table untouched)
for every token with no matching record; when a record is found and the
signed-URL issuance succeeds, the caller receives the fileName, fileType and
download URL for every value of the status-write oracle — so a failing
opportunistic write is non-fatal — and when the record is pending and the
store accepts the write, it is transitioned to sent with sent_at = now. -/
theorem C4_resolve_by_token (env : Client.Env) (db : List ScheduledFile) (token : String) :
    (Client.findByToken db token = none → Client.getFileByToken env db token = (none, db))
    ∧ (∀ data url, Client.findByToken db token = some data →
        env.signedUrl data.storage_path (60 * 60 * 24) = some url →
        (Client.getFileByToken env db token).1
            = some ⟨data.file_name, data.file_type, url⟩
          ∧ (data.status = Status.pending → env.updateOk data.id = true →
              (Client.getFileByToken env db token).2
                = db.map (fun f => if f.id = data.id then
                    { f with status := Status.sent, sent_at := some env.now } else f))) := by
  constructor
  · intro h
    simp [Client.getFileByToken, h]
  · intro data url hfind hurl
    constructor
    · simp [Client.getFileByToken, hfind, hurl]
    · intro hp hok
      simp [Client.getFileByToken, hfind, hurl, hp, hok]

/-- Witness for C4 at a concrete input: the record is found, the signed URL
is issued, the store rejects the status write, and the caller still receives
the file name, type and URL. -/
theorem C4_resolve_by_token_witness :
    Client.findByToken [rowPending] "tok1" = some rowPending
    ∧ cenvWriteFail.updateOk rowPending.id = false
    ∧ (Client.getFileByToken cenvWriteFail [rowPending] "tok1").1
        = some ⟨"notes.txt", "text/plain", "signed:u1/notes.txt"⟩ := by
  refine ⟨by decide, rfl, ?_⟩
  exact ((C4_resolve_by_token cenvWriteFail [rowPending] "tok1").2 rowPending
    "signed:u1/notes.txt" (by decide) (by decide)).1

/-- Claim C5 (amended): a record whose email send succeeded but whose status
write was rejected is reported by processFile with success := false and the
error string "Failed to update file status" — counted under failed and
distinguishable from a send failure only by the error text — and its row is
left unchanged. -/
theorem C5_write_failure_detail (env : Dispatch.Env) (db : List ScheduledFile)
    (f : ScheduledFile)
    (hmail : Dispatch.sendEmail env f.recipient_email (Dispatch.emailSubject f)
        (Dispatch.emailBody env f) = true)
    (hup : env.updateOk f.id Status.sent = false) :
    (Dispatch.processFile env db f).2.1
      = ⟨f.id, false, some "Failed to update file status"⟩
    ∧ (Dispatch.processFile env db f).1 = db := by
  have ht : Dispatch.targetStatus env f = Status.sent := by
    simp [Dispatch.targetStatus, hmail]
  constructor
  · rw [Dispatch.processFile_detail]
    simp [Dispatch.fileDetail, hmail, hup]
  · rw [Dispatch.processFile_fst, ht, hup]
    simp

/-- Witness for C5 at a concrete input. -/
theorem C5_write_failure_detail_witness :
    (Dispatch.processFile envWriteFail [rowPending] rowPending).2.1
      = ⟨"f1", false, some "Failed to update file status"⟩
    ∧ (Dispatch.processFile envWriteFail [rowPending] rowPending).1 = [rowPending] :=
  C5_write_failure_detail envWriteFail [rowPending] rowPending (by decide) rfl

/-- Claim C9 (amended): errors during the owner-facing list operation are
swallowed inside it — both the unauthenticated case and a store fetch error
make getScheduledFiles return the plain empty list, the same shape a
successful empty fetch returns, with no typed failure propagating. -/
theorem C9_list_errors_swallowed (env : Client.Env) (db : List ScheduledFile) :
    (env.authUser = none → Client.getScheduledFiles env db = [])
    ∧ (env.listOk = false → Client.getScheduledFiles env db = []) := by
  constructor
  · intro h
    simp [Client.getScheduledFiles, h]
  · intro h
    cases henv : env.authUser <;> simp [Client.getScheduledFiles, henv, h]

/-- Witness for C9 at a concrete input. -/
theorem C9_list_errors_swallowed_witness :
    cenvListFail.listOk = false
    ∧ Client.getScheduledFiles cenvListFail [rowPending] = [] :=
  ⟨rfl, (C9_list_errors_swallowed cenvListFail [rowPending]).2 rfl⟩

/-- Claim C10: for every token whose record exists (and whose signed-URL
issuance succeeds), resolution returns the 24-hour download URL regardless of
the record's status — the table is untouched for sent and failed records, and
only a pending record receives the lazy transition to sent. -/
theorem C10_resolve_ignores_status (env : Client.Env) (db : List ScheduledFile)
    (token : String) (data : ScheduledFile) (url : String)
    (hfind : Client.findByToken db token = some data)
    (hurl : env.signedUrl data.storage_path (60 * 60 * 24) = some url) :
    (Client.getFileByToken env db token).1 = some ⟨data.file_name, data.file_type, url⟩
    ∧ (data.status ≠ Status.pending → (Client.getFileByToken env db token).2 = db)
    ∧ (data.status = Status.pending → env.updateOk data.id = true →
        (Client.getFileByToken env db token).2
          = db.map (fun f => if f.id = data.id then
              { f with status := Status.sent, sent_at := some env.now } else f)) := by
  refine ⟨?_, ?_, ?_⟩
  · simp [Client.getFileByToken, hfind, hurl]
  · intro h
    simp [Client.getFileByToken, hfind, hurl, h]
  · intro hp hok
    simp [Client.getFileByToken, hfind, hurl, hp, hok]

/-- Witness for C10 at a concrete input: a failed record still resolves to a
download URL and is left untouched. -/
theorem C10_resolve_ignores_status_witness :
    rowFailed.status = Status.failed
    ∧ (Client.getFileByToken cenvAllOk [rowFailed] "tok1").1
        = some ⟨"notes.txt", "text/plain", "signed:u1/notes.txt"⟩
    ∧ (Client.getFileByToken cenvAllOk [rowFailed] "tok1").2 = [rowFailed] := by
  refine ⟨rfl, ?_, ?_⟩
  · exact (C10_resolve_ignores_status cenvAllOk [rowFailed] "tok1" rowFailed
      "signed:u1/notes.txt" (by decide) (by decide)).1
  · exact (C10_resolve_ignores_status cenvAllOk [rowFailed] "tok1" rowFailed
      "signed:u1/notes.txt" (by decide) (by decide)).2.1 (by decide)

/-- Claim C6 (amended): a run with zero due records short-circuits — it
returns { processed: 0, message } (with no success/failed/details fields),
makes no transport call and leaves the table untouched; a run with at least
one due record returns the full batch shape with
processed = success + failed = length of details. -/
theorem C6_batch_shape (env : Dispatch.Env) (db : List ScheduledFile) :
    (Dispatch.getScheduledFiles env db = [] →
      Dispatch.processScheduledFiles env db
        = (Dispatch.RunResult.noFiles 0 "No files ready to be sent", db, []))
    ∧ (Dispatch.getScheduledFiles env db ≠ [] →
      Dispatch.processScheduledFiles env db
        = (Dispatch.RunResult.batch
            (Dispatch.getScheduledFiles env db).length
            (((Dispatch.getScheduledFiles env db).map (Dispatch.fileDetail env)).filter
              (fun d => d.success)).length
            (((Dispatch.getScheduledFiles env db).map (Dispatch.fileDetail env)).filter
              (fun d => !d.success)).length
            ((Dispatch.getScheduledFiles env db).map (Dispatch.fileDetail env)),
           Dispatch.dbAfter env db (Dispatch.getScheduledFiles env db),
           (Dispatch.getScheduledFiles env db).flatMap (Dispatch.callsOf env))
      ∧ (((Dispatch.getScheduledFiles env db).map (Dispatch.fileDetail env)).filter
            (fun d => d.success)).length
          + (((Dispatch.getScheduledFiles env db).map (Dispatch.fileDetail env)).filter
            (fun d => !d.success)).length
          = ((Dispatch.getScheduledFiles env db).map (Dispatch.fileDetail env)).length
      ∧ ((Dispatch.getScheduledFiles env db).map (Dispatch.fileDetail env)).length
          = (Dispatch.getScheduledFiles env db).length) := by
  constructor
  · exact Dispatch.processScheduledFiles_empty env db
  · intro h
    exact ⟨Dispatch.processScheduledFiles_batch env db h,
      Dispatch.filter_length_add _ _, by simp⟩

/-- Witness for C6 at a concrete input with one due record. -/
theorem C6_batch_shape_witness :
    Dispatch.getScheduledFiles envAllOk [rowPending] ≠ []
    ∧ (((Dispatch.getScheduledFiles envAllOk [rowPending]).map
          (Dispatch.fileDetail envAllOk)).filter (fun d => d.success)).length
        + (((Dispatch.getScheduledFiles envAllOk [rowPending]).map
          (Dispatch.fileDetail envAllOk)).filter (fun d => !d.success)).length
        = ((Dispatch.getScheduledFiles envAllOk [rowPending]).map
          (Dispatch.fileDetail envAllOk)).length := by
  have h : Dispatch.getScheduledFiles envAllOk [rowPending] ≠ [] := by decide
  exact ⟨h, ((C6_batch_shape envAllOk [rowPending]).2 h).2.1⟩

/-- Claim C7: every way the mail send can fail — missing transport
credential, recipient without an @ sign, or a transport/provider rejection —
makes sendEmail return false; processFile then reports the record with
success := false and the error string "Failed to send email" and issues the
failed status write (which lands whenever the store accepts it); in
particular the concrete scenario with recipient "not-an-email" yields
processed 1, success 0, failed 1, no transport call, and a final status of
failed. -/
theorem C7_mail_failure_path :
    (∀ (env : Dispatch.Env) (a s b : String), env.resendApiKey = none →
        Dispatch.sendEmail env a s b = false)
    ∧ (∀ (env : Dispatch.Env) (a s b : String), a.data.contains '@' = false →
        Dispatch.sendEmail env a s b = false)
    ∧ (∀ (env : Dispatch.Env) (a s b : String), env.resendOk a s b = false →
        Dispatch.sendEmail env a s b = false)
    ∧ (∀ (env : Dispatch.Env) (db : List ScheduledFile) (f : ScheduledFile),
        Dispatch.sendEmail env f.recipient_email (Dispatch.emailSubject f)
            (Dispatch.emailBody env f) = false →
        (Dispatch.processFile env db f).2.1 = ⟨f.id, false, some "Failed to send email"⟩
        ∧ (env.updateOk f.id Status.failed = true →
            (Dispatch.processFile env db f).1 = Dispatch.setStatus db f.id Status.failed))
    ∧ Dispatch.processScheduledFiles envAllOk [rowBadEmail]
        = (Dispatch.RunResult.batch 1 0 1 [⟨"f1", false, some "Failed to send email"⟩],
           [{ rowBadEmail with status := Status.failed }], []) := by
  refine ⟨?_, ?_, ?_, ?_, ?_⟩
  · intro env a s b h
    simp [Dispatch.sendEmail, Dispatch.sendEmailCalls, h]
  · intro env a s b h
    have h2 : '@' ∉ a.data := by simpa using h
    cases henv : env.resendApiKey <;>
      simp [Dispatch.sendEmail, Dispatch.sendEmailCalls, henv, h2]
  · intro env a s b h
    cases henv : env.resendApiKey
    · simp [Dispatch.sendEmail, Dispatch.sendEmailCalls, henv]
    · simp only [Dispatch.sendEmail, Dispatch.sendEmailCalls, henv]
      split
      · rfl
      · simp [h]
  · intro env db f h
    have ht : Dispatch.targetStatus env f = Status.failed := by
      simp [Dispatch.targetStatus, h]
    constructor
    · rw [Dispatch.processFile_detail]
      simp [Dispatch.fileDetail, h]
    · intro hok
      rw [Dispatch.processFile_fst, ht, hok]
      simp
  · set_option maxRecDepth 4000 in decide

/-- Witness for C7 at a concrete input: a transport-rejected send is reported
with the send-failure detail. -/
theorem C7_mail_failure_path_witness :
    (Dispatch.processFile envMailFail [rowPending] rowPending).2.1
      = ⟨"f1", false, some "Failed to send email"⟩
    ∧ (Dispatch.processFile envMailFail [rowPending] rowPending).1
      = Dispatch.setStatus [rowPending] "f1" Status.failed := by
  have h := C7_mail_failure_path.2.2.2.1 envMailFail [rowPending] rowPending (by decide)
  exact ⟨h.1, h.2 rfl⟩

/-- Claim C8 (amended): updateScheduledFile rewrites the recipient, scheduled
date and updated_at of the row with the matching id whenever the store
accepts the write, with no regard to the row's current status — a sent or
failed record's recipient and date are modified just like a pending one's. -/
theorem C8_reschedule_unguarded (env : Client.Env) (db : List ScheduledFile)
    (p : Client.UpdateScheduleParams) (f : ScheduledFile)
    (hok : env.updateOk p.id = true) (hnd : (db.map (fun x => x.id)).Nodup)
    (hf : f ∈ db) (hid : f.id = p.id) :
    ∀ db2, Client.updateScheduledFile env db p = Except.ok db2 →
      getById db2 p.id
        = some { f with
            recipient_email := p.recipient,
            scheduled_date := p.scheduledDate,
            updated_at := env.now } := by
  intro db2 h
  rw [Client.updateScheduledFile] at h
  rw [if_pos hok] at h
  injection h with h2
  subst h2
  rw [Dispatch.getById_map_guard
      (fun g => { g with
          recipient_email := p.recipient, scheduled_date := p.scheduledDate,
          updated_at := env.now })
      (fun g => rfl) p.id p.id db]
  rw [← hid, Dispatch.getById_self_of_nodup db hnd f hf]
  simp [hid]

/-- The row C8's concrete reschedule of a sent record produces. -/
def rowSentUpdated : ScheduledFile :=
  { rowSent with
      recipient_email := "new@x.com", scheduled_date := 60, updated_at := 100 }

/-- Witness for C8 at a concrete input: the updated row of a sent record. -/
theorem C8_reschedule_unguarded_witness :
    getById [rowSentUpdated] "f1" = some rowSentUpdated := by
  exact C8_reschedule_unguarded cenvAllOk [rowSent] updParams rowSent rfl (by decide)
    (List.mem_cons_self _ _) rfl [rowSentUpdated] rfl

/-- Claim C3 (amended): for a due pending record whose email send succeeds
and whose status write the store accepts, the dispatch run sets the stored
row's status to sent and changes nothing else — in particular sentAt is NOT
written by the dispatcher (it keeps whatever value the row already had). -/
theorem C3_success_sets_status_only (env : Dispatch.Env) (db : List ScheduledFile)
    (f : ScheduledFile) (hnd : (db.map (fun x => x.id)).Nodup) (hf : f ∈ db)
    (hp : f.status = Status.pending) (hdue : f.scheduled_date ≤ env.now)
    (hmail : Dispatch.sendEmail env f.recipient_email (Dispatch.emailSubject f)
        (Dispatch.emailBody env f) = true)
    (hok : env.updateOk f.id Status.sent = true) :
    getById (Dispatch.processScheduledFiles env db).2.1 f.id
      = some { f with status := Status.sent } := by
  have hmem : f ∈ Dispatch.getScheduledFiles env db := by
    rw [Dispatch.getScheduledFiles, List.mem_filter]
    exact ⟨hf, by simp [hp, hdue]⟩
  have hne : Dispatch.getScheduledFiles env db ≠ [] := List.ne_nil_of_mem hmem
  rw [Dispatch.processScheduledFiles_batch env db hne]
  have ht : Dispatch.targetStatus env f = Status.sent := by
    simp [Dispatch.targetStatus, hmail]
  have hself : getById db f.id = some f := Dispatch.getById_self_of_nodup db hnd f hf
  have hmain := Dispatch.getById_dbAfter_mem env (Dispatch.getScheduledFiles env db) db f f
    (Dispatch.getScheduledFiles_nodup_ids env db hnd) hmem hself
  rw [ht, hok] at hmain
  simpa using hmain

/-- Witness for C3 at a concrete input: the dispatched row is sent and its
sent_at is still none. -/
theorem C3_success_sets_status_only_witness :
    getById (Dispatch.processScheduledFiles envAllOk [rowPending]).2.1 "f1"
      = some { rowPending with status := Status.sent } :=
  C3_success_sets_status_only envAllOk [rowPending] rowPending (by decide)
    (List.mem_cons_self _ _) rfl (by decide) (by decide) rfl

/-- Claim C1 (amended): in a single dispatch run over a table with distinct
ids and a store that accepts the status writes, every record with status
pending and scheduled_date <= now contributes exactly one detail entry (one
attempt) and its stored row ends as exactly one of sent/failed, while every
other record is left byte-for-byte unchanged and contributes no detail entry.
(The store-acceptance hypothesis is what the claim as stated omits: see the
counterexample, where a rejected write leaves a due pending record pending.) -/
theorem C1_dispatch_run_exactly_once (env : Dispatch.Env) (db : List ScheduledFile)
    (hupd : ∀ i s, env.updateOk i s = true)
    (hnd : (db.map (fun x => x.id)).Nodup)
    (f : ScheduledFile) (hf : f ∈ db) :
    (f.status = Status.pending ∧ f.scheduled_date ≤ env.now →
      ((Dispatch.processScheduledFiles env db).1.detailList.filter
          (fun d => d.id == f.id)).length = 1
      ∧ (getById (Dispatch.processScheduledFiles env db).2.1 f.id
            = some { f with status := Status.sent }
         ∨ getById (Dispatch.processScheduledFiles env db).2.1 f.id
            = some { f with status := Status.failed }))
    ∧ (¬(f.status = Status.pending ∧ f.scheduled_date ≤ env.now) →
      getById (Dispatch.processScheduledFiles env db).2.1 f.id = some f
      ∧ ∀ d ∈ (Dispatch.processScheduledFiles env db).1.detailList, d.id ≠ f.id) := by
  constructor
  · rintro ⟨hp, hdue⟩
    have hmem : f ∈ Dispatch.getScheduledFiles env db := by
      rw [Dispatch.getScheduledFiles, List.mem_filter]
      exact ⟨hf, by simp [hp, hdue]⟩
    have hne : Dispatch.getScheduledFiles env db ≠ [] := List.ne_nil_of_mem hmem
    have hndSel := Dispatch.getScheduledFiles_nodup_ids env db hnd
    rw [Dispatch.processScheduledFiles_batch env db hne]
    constructor
    · simpa [Dispatch.RunResult.detailList] using
        Dispatch.detail_filter_count env (Dispatch.getScheduledFiles env db) f hndSel hmem
    · have hself : getById db f.id = some f := Dispatch.getById_self_of_nodup db hnd f hf
      have hmain := Dispatch.getById_dbAfter_mem env (Dispatch.getScheduledFiles env db) db f f
        hndSel hmem hself
      rw [hupd f.id (Dispatch.targetStatus env f)] at hmain
      cases hmail : Dispatch.sendEmail env f.recipient_email (Dispatch.emailSubject f)
          (Dispatch.emailBody env f) with
      | false =>
        right
        have ht : Dispatch.targetStatus env f = Status.failed := by
          simp [Dispatch.targetStatus, hmail]
        rw [ht] at hmain
        simpa using hmain
      | true =>
        left
        have ht : Dispatch.targetStatus env f = Status.sent := by
          simp [Dispatch.targetStatus, hmail]
        rw [ht] at hmain
        simpa using hmain
  · intro hnp
    have hnmem : f ∉ Dispatch.getScheduledFiles env db := by
      rw [Dispatch.getScheduledFiles, List.mem_filter]
      intro hc
      have hb := hc.2
      simp only [Bool.and_eq_true, decide_eq_true_eq, beq_iff_eq] at hb
      exact hnp ⟨hb.2, hb.1⟩
    have hids : ∀ g ∈ Dispatch.getScheduledFiles env db, g.id ≠ f.id := by
      intro g hg hEq
      have hgdb : g ∈ db := List.mem_of_mem_filter hg
      have hgf : g = f := List.inj_on_of_nodup_map hnd hgdb hf hEq
      exact hnmem (hgf ▸ hg)
    by_cases hsel : Dispatch.getScheduledFiles env db = []
    · rw [Dispatch.processScheduledFiles_empty env db hsel]
      exact ⟨Dispatch.getById_self_of_nodup db hnd f hf,
        by simp [Dispatch.RunResult.detailList]⟩
    · rw [Dispatch.processScheduledFiles_batch env db hsel]
      constructor
      · have h1 : getById (Dispatch.dbAfter env db (Dispatch.getScheduledFiles env db)) f.id
            = getById db f.id :=
          Dispatch.getById_dbAfter_ne env (Dispatch.getScheduledFiles env db) db f.id hids
        simpa [h1] using Dispatch.getById_self_of_nodup db hnd f hf
      · intro d hd
        simp only [Dispatch.RunResult.detailList] at hd
        rcases List.mem_map.mp hd with ⟨g, hg, rfl⟩
        rw [Dispatch.fileDetail_id]
        exact hids g hg

/-- Witness for C1 at a concrete input: a table with a due pending record
and a not-yet-due record; the due one is attempted once and ends sent or
failed. -/
theorem C1_dispatch_run_exactly_once_witness :
    ((Dispatch.processScheduledFiles envAllOk [rowPending, rowFuture]).1.detailList.filter
        (fun d => d.id == "f1")).length = 1
    ∧ (getById (Dispatch.processScheduledFiles envAllOk [rowPending, rowFuture]).2.1 "f1"
          = some { rowPending with status := Status.sent }
       ∨ getById (Dispatch.processScheduledFiles envAllOk [rowPending, rowFuture]).2.1 "f1"
          = some { rowPending with status := Status.failed }) :=
  (C1_dispatch_run_exactly_once envAllOk [rowPending, rowFuture] (fun _ _ => rfl) (by decide)
    rowPending (List.mem_cons_self _ _)).1 ⟨rfl, by decide⟩
